import Mathlib

/-!
Verification of the fossilpy repository reader (src/fossil.py) against its
natural-language specification.

The Python source is shallowly embedded: bytes objects become `List Nat`
(entries are byte values), decoded `str` values become `List Char`, and code
paths that raise Python exceptions return `none` / `Except.error`.  The
embedding follows the source line by line, including its quirks:

  * `base64_getint` crashes (UnboundLocalError on `z`) when `buf[pos:]` is
    empty, because the `for`/`else` increments a loop variable that was never
    bound; this is modelled by returning `none` exactly when
    `buf.length <= pos`.
  * `base64_putint` appends the low six bits first and never reverses.
  * `delta_apply` slices `blob[offset:offset+num]`, and Python slicing clamps
    silently; `pySlice` clamps the same way.
  * `Repo.artifact` raises `ValueError("can't find artifact: %s" % rid)` when
    the working buffer is falsy; when the chain query returned no rows the
    loop variable `rid` is unbound and the raise statement itself dies with
    UnboundLocalError.  The two outcomes are the distinct error values
    `ArtifactErr.cantFind rid` and `ArtifactErr.unboundLocalRid`.
  * zlib inflation is an external library call; it is modelled as an
    explicit function parameter `inflate` of the chain resolver.
-/

/-- Byte values of an ASCII string literal (all literals used are ASCII). -/
def strBytes (s : String) : List Nat :=
  s.toList.map Char.toNat

/-- Character list of a string literal. -/
def strChars (s : String) : List Char :=
  s.toList

/-! ## VarintCodec: base64_putint / base64_getint (fossil.py lines 29-61) -/

/-- The 64-symbol digit alphabet `zdigits` of `base64_putint`. -/
def zdigits : List Nat :=
  strBytes "0123456789ABCDEFGHIJKLMNOPQRSTUVWXYZ_abcdefghijklmnopqrstuvwxyz~"

/-- The 128-entry decode table `base64_getint.zvalue` (fossil.py lines 52-61). -/
def zvalue : List Int :=
  [ -1, -1, -1, -1, -1, -1, -1, -1,   -1, -1, -1, -1, -1, -1, -1, -1,
    -1, -1, -1, -1, -1, -1, -1, -1,   -1, -1, -1, -1, -1, -1, -1, -1,
    -1, -1, -1, -1, -1, -1, -1, -1,   -1, -1, -1, -1, -1, -1, -1, -1,
     0,  1,  2,  3,  4,  5,  6,  7,    8,  9, -1, -1, -1, -1, -1, -1,
    -1, 10, 11, 12, 13, 14, 15, 16,   17, 18, 19, 20, 21, 22, 23, 24,
    25, 26, 27, 28, 29, 30, 31, 32,   33, 34, 35, -1, -1, -1, -1, 36,
    -1, 37, 38, 39, 40, 41, 42, 43,   44, 45, 46, 47, 48, 49, 50, 51,
    52, 53, 54, 55, 56, 57, 58, 59,   60, 61, 62, -1, -1, -1, 63, -1 ]

/-- `zvalue[0x7f & ch]`: the digit value of byte `ch`, `-1` for a non-digit. -/
def digitVal (ch : Nat) : Int :=
  zvalue.getD (ch % 128) (-1)

/-- The digit-consuming loop of `base64_getint`: returns the accumulated value
and the number of leading digit bytes consumed from the list. -/
def getint_count : List Nat → Nat → Nat × Nat
  | [], v => (v, 0)
  | ch :: r, v =>
    if digitVal ch < 0 then (v, 0)
    else
      let p := getint_count r (v * 64 + (digitVal ch).toNat)
      (p.1, p.2 + 1)

/-- `base64_getint(buf, pos)` (fossil.py lines 40-50).  Returns the decoded
value and the end position.  When `buf[pos:]` is empty the Python `for`/`else`
executes `z += 1` with `z` unbound and the call dies with UnboundLocalError;
that path is `none`. -/
def base64_getint (buf : List Nat) (pos : Nat) : Option (Nat × Nat) :=
  if buf.length ≤ pos then none
  else
    some ((getint_count (buf.drop pos) 0).1, pos + (getint_count (buf.drop pos) 0).2)

/-- The `while v > 0` loop of `base64_putint`: emits the LOW six bits first,
appending to the result, and never reverses. -/
def putint_go (v : Nat) : List Nat :=
  if h : v = 0 then []
  else zdigits.getD (v % 64) 0 :: putint_go (v / 64)
termination_by v
decreasing_by
  exact Nat.div_lt_self (Nat.pos_of_ne_zero h) (by omega)

/-- `base64_putint(v)` (fossil.py lines 29-37). -/
def base64_putint (v : Nat) : List Nat :=
  if v = 0 then [48] else putint_go v

/-! ## Checksum: delta_checksum (fossil.py lines 79-89, non-numpy branch;
the numpy branch computes the same word sum) -/

/-- `struct.unpack('>I', ...)` of four bytes: the big-endian 32-bit word. -/
def be32 (a b c d : Nat) : Nat :=
  a * 16777216 + b * 65536 + c * 256 + d

/-- The accumulation loop of `delta_checksum`: fold the 32-bit words with a
mod-2^32 running sum (any trailing sub-word chunk is impossible after
padding). -/
def csGo : Nat → List Nat → Nat
  | cs, a :: b :: c :: d :: r => csGo ((cs + be32 a b c d) % 4294967296) r
  | cs, _ => cs

/-- `delta_checksum(blob)`: the buffer followed by `b'\0' * (4 - len % 4)`
(four zero bytes when already aligned, exactly as the source builds `rem`),
summed as big-endian 32-bit words mod 2^32. -/
def delta_checksum (blob : List Nat) : Nat :=
  csGo 0 (blob ++ List.replicate (4 - blob.length % 4) 0)

/-- Plain (un-modded) word sum, used to reason about `csGo`. -/
def sumWords : List Nat → Nat
  | a :: b :: c :: d :: r => be32 a b c d + sumWords r
  | _ => 0

/-! ## DeltaDecoder: delta_apply (fossil.py lines 92-124) -/

/-- Python slice `l[i:j]` for non-negative indices: clamps silently. -/
def pySlice (l : List Nat) (i j : Nat) : List Nat :=
  (l.drop i).take (j - i)

/-- Python indexing `l[i]` for a non-negative index: `none` is IndexError. -/
def pyIndex : List Nat → Nat → Option Nat
  | [], _ => none
  | c :: _, 0 => some c
  | _ :: r, i + 1 => pyIndex r i

/-- The instruction loop of `delta_apply`, operating on the not-yet-consumed
tail `rem` of the delta (the source keeps an absolute position `pos`; dropping
the consumed prefix is the same thing).  One iteration: read a varint `num`
(the guard `while pos < len(delta)` makes the slice nonempty, so this read
cannot crash), read the op byte (IndexError if the varint consumed the whole
tail), then dispatch:
  * `@` (64, COPY): read a varint `offset` — this second read CAN crash when
    positioned at end-of-buffer, hence `base64_getint` — skip the `,` byte
    unchecked, and append the silently-clamped slice `blob[offset:offset+num]`;
  * `:` (58, INSERT): append the next `num` delta bytes (clamped) and skip them;
  * `;` (59, END): break, returning the output and the declared checksum `num`;
  * anything else: ValueError.
Falling out of the loop with `rem` exhausted is the `while`/`else` ValueError. -/
def delta_loop (blob : List Nat) (rem : List Nat) (acc : List Nat) :
    Option (List Nat × Nat) :=
  if hrem : rem = [] then none
  else
    match pyIndex rem (getint_count rem 0).2 with
    | none => none
    | some op =>
      if op = 64 then
        match base64_getint (rem.drop ((getint_count rem 0).2 + 1)) 0 with
        | none => none
        | some (off, k2) =>
          delta_loop blob ((rem.drop ((getint_count rem 0).2 + 1)).drop (k2 + 1))
            (acc ++ pySlice blob off (off + (getint_count rem 0).1))
      else if op = 58 then
        delta_loop blob
          ((rem.drop ((getint_count rem 0).2 + 1)).drop (getint_count rem 0).1)
          (acc ++ pySlice (rem.drop ((getint_count rem 0).2 + 1)) 0 (getint_count rem 0).1)
      else if op = 59 then some (acc, (getint_count rem 0).1)
      else none
termination_by rem.length
decreasing_by
  · have hpos : 0 < rem.length := List.length_pos.mpr hrem
    simp only [List.length_drop]
    omega
  · have hpos : 0 < rem.length := List.length_pos.mpr hrem
    simp only [List.length_drop]
    omega

/-- `delta_apply(blob, delta, check)` (fossil.py lines 92-124).  Reads the
target size varint (crashing on an empty delta), skips the `\n` byte
unchecked, runs the instruction loop, then enforces the size equality and,
only when `check` is set, the checksum equality. -/
def delta_apply (blob delta : List Nat) (check : Bool) : Option (List Nat) :=
  match base64_getint delta 0 with
  | none => none
  | some (targetsize, q) =>
    match delta_loop blob (delta.drop (q + 1)) [] with
    | none => none
    | some (out, cksum) =>
      if targetsize = out.length then
        if check = true ∧ ¬cksum = delta_checksum out then none else some out
      else none

/-! ## ClearsignStripper: remove_clearsign (fossil.py lines 127-144) -/

/-- `bytes.splitlines(True)`: split at `\n`, `\r` and `\r\n`, keeping the
terminators. -/
def splitlinesKeep : List Nat → List (List Nat)
  | [] => []
  | [c] => if c = 10 then [[10]] else if c = 13 then [[13]] else [[c]]
  | c :: d :: r =>
    if c = 10 then [10] :: splitlinesKeep (d :: r)
    else if c = 13 then
      if d = 10 then [13, 10] :: splitlinesKeep r
      else [13] :: splitlinesKeep (d :: r)
    else
      match splitlinesKeep (d :: r) with
      | [] => [[c]]
      | l :: ls => (c :: l) :: ls

/-- `bytes.rstrip()` with no argument: strip trailing ASCII whitespace
(space, tab, newline, carriage return, vertical tab, form feed). -/
def rstripB (l : List Nat) : List Nat :=
  (l.reverse.dropWhile
    (fun c => c = 32 || c = 9 || c = 10 || c = 13 || c = 11 || c = 12)).reverse

/-- The `b'-----BEGIN PGP SIGNED MESSAGE-----'` header literal. -/
def clearsignHeader : List Nat :=
  strBytes "-----BEGIN PGP SIGNED MESSAGE-----"

/-- The `b'-----BEGIN PGP SIGNATURE-----'` header literal. -/
def pgpsignHeader : List Nat :=
  strBytes "-----BEGIN PGP SIGNATURE-----"

/-- The dash-escape removal `ln[2:] if ln.startswith(b'- ') else ln`. -/
def dedash (ln : List Nat) : List Nat :=
  if [45, 32].isPrefixOf ln then ln.drop 2 else ln

/-- The line loop of `remove_clearsign`: `content` is the flag set by the
first whitespace-only line.  A whitespace-only line always takes the first
branch (even inside the message body, where it is therefore dropped); a
non-blank line is emitted, dash-unescaped, once `content` is set, stopping at
the PGP SIGNATURE line. -/
def rc_go : Bool → List (List Nat) → List (List Nat)
  | _, [] => []
  | content, ln :: r =>
    if rstripB ln = [] then rc_go true r
    else if content then
      if rstripB ln = pgpsignHeader then []
      else dedash ln :: rc_go true r
    else rc_go content r

/-- `remove_clearsign(blob)` (fossil.py lines 127-144). -/
def remove_clearsign (blob : List Nat) : List Nat :=
  if clearsignHeader.isPrefixOf blob then List.flatten (rc_go false (splitlinesKeep blob))
  else blob

/-- A line the loop treats as blank: whitespace-only. -/
def isBlankLine (l : List Nat) : Bool :=
  decide (rstripB l = [])

/-- A line equal (after right-stripping) to the PGP SIGNATURE header. -/
def isSigLine (l : List Nat) : Bool :=
  decide (rstripB l = pgpsignHeader)

/-- Lines after the first blank line (the spec's "skip all lines until and
including the first blank line"). -/
def dropThroughBlank (ls : List (List Nat)) : List (List Nat) :=
  (ls.dropWhile (fun l => !isBlankLine l)).drop 1

/-- The output C3 claims: every line after the first blank line, up to but
excluding the PGP-signature line, dash-unescaped — interior blank lines
KEPT. -/
def clearsign_claim_lines (ls : List (List Nat)) : List (List Nat) :=
  ((dropThroughBlank ls).takeWhile (fun l => !isSigLine l)).map dedash

/-- The corrected description: as `clearsign_claim_lines`, but whitespace-only
lines inside the region are dropped, matching the code. -/
def clearsign_spec_lines (ls : List (List Nat)) : List (List Nat) :=
  (((dropThroughBlank ls).takeWhile (fun l => !isSigLine l)).filter
    (fun l => !isBlankLine l)).map dedash

/-! ## Card-text unescaping: text_unescape (fossil.py line 24) -/

/-- Python `str.replace(pat, rep)` for a two-character pattern: a single
left-to-right scan replacing non-overlapping occurrences. -/
def replace2 (p q : Char) (rep : List Char) : List Char → List Char
  | [] => []
  | [a] => [a]
  | a :: b :: r =>
    if a = p ∧ b = q then rep ++ replace2 p q rep r
    else a :: replace2 p q rep (b :: r)

/-- `text_unescape(s)`: `s.replace('\\s', ' ').replace('\\n', '\n')
.replace('\\\\', '\\')` — three sequential global replacements (the pattern
`\s` first, then `\n`, then `\\`). -/
def text_unescape (s : List Char) : List Char :=
  replace2 '\\' '\\' ['\\']
    (replace2 '\\' 'n' ['\n']
      (replace2 '\\' 's' [' '] s))

/-- The single left-to-right pass C4 claims equivalent: backslash introduces
one of the escape sequences `\\`, `\s`, `\n`; anything else is copied
through. -/
def unescape_onepass : List Char → List Char
  | [] => []
  | [a] => [a]
  | a :: b :: r =>
    if a = '\\' then
      if b = '\\' then '\\' :: unescape_onepass r
      else if b = 's' then ' ' :: unescape_onepass r
      else if b = 'n' then '\n' :: unescape_onepass r
      else a :: unescape_onepass (b :: r)
    else a :: unescape_onepass (b :: r)

/-- Detects an occurrence of the three-character substring `\\s` or `\\n`
(backslash, backslash, then `s` or `n`) — exactly the shapes on which the
sequential replacements and the single pass disagree. -/
def hasBadTriple : List Char → Bool
  | a :: b :: c :: r =>
    ((a == '\\') && (b == '\\') && ((c == 's') || (c == 'n'))) ||
      hasBadTriple (b :: c :: r)
  | _ => false

/-! ## CardParser: StructuralArtifact.parse (fossil.py lines 190-256) -/

/-- `io.BytesIO.readline()`: the line up to and including the first `\n`
(only `\n` terminates lines for a byte stream), plus the rest of the stream. -/
def readline : List Nat → List Nat × List Nat
  | [] => ([], [])
  | c :: r =>
    if c = 10 then ([10], r)
    else ((c :: (readline r).1), (readline r).2)

/-- Strict UTF-8 decoding of a byte list, as `bytes.decode('utf-8')`:
rejects truncated sequences, stray continuation bytes, overlong encodings,
surrogates and values above U+10FFFF; `none` is UnicodeDecodeError. -/
def utf8Decode : List Nat → Option (List Char)
  | [] => some []
  | b :: r =>
    if b < 128 then (utf8Decode r).map (fun cs => Char.ofNat b :: cs)
    else if 194 ≤ b ∧ b ≤ 223 then
      match r with
      | c :: r2 =>
        if 128 ≤ c ∧ c ≤ 191 then
          (utf8Decode r2).map (fun cs => Char.ofNat ((b - 194 + 2) * 64 + (c - 128)) :: cs)
        else none
      | [] => none
    else if 224 ≤ b ∧ b ≤ 239 then
      match r with
      | c :: d :: r2 =>
        if (if b = 224 then 160 else 128) ≤ c ∧
            c ≤ (if b = 237 then 159 else 191) ∧ 128 ≤ d ∧ d ≤ 191 then
          (utf8Decode r2).map
            (fun cs => Char.ofNat ((b - 224) * 4096 + (c - 128) * 64 + (d - 128)) :: cs)
        else none
      | _ => none
    else if 240 ≤ b ∧ b ≤ 244 then
      match r with
      | c :: d :: e :: r2 =>
        if (if b = 240 then 144 else 128) ≤ c ∧
            c ≤ (if b = 244 then 143 else 191) ∧
            128 ≤ d ∧ d ≤ 191 ∧ 128 ≤ e ∧ e ≤ 191 then
          (utf8Decode r2).map
            (fun cs =>
              Char.ofNat ((b - 240) * 262144 + (c - 128) * 4096 + (d - 128) * 64 + (e - 128)) :: cs)
        else none
      | _ => none
    else none

/-- The code points Python's `str.isspace` recognizes; `str.rstrip()` strips
these from the right end. -/
def uniWS : List Nat :=
  [9, 10, 11, 12, 13, 28, 29, 30, 31, 32, 133, 160, 5760,
   8192, 8193, 8194, 8195, 8196, 8197, 8198, 8199, 8200, 8201, 8202,
   8232, 8233, 8239, 8287, 12288]

/-- `str.rstrip()` with no argument. -/
def pyStrRstrip (s : List Char) : List Char :=
  (s.reverse.dropWhile (fun c => uniWS.contains c.toNat)).reverse

/-- `str.split(' ')`: split at every single space, keeping empty pieces
(so `''.split(' ') == ['']`). -/
def pySplitSpace : List Char → List (List Char)
  | [] => [[]]
  | c :: r =>
    if c = ' ' then [] :: pySplitSpace r
    else
      match pySplitSpace r with
      | [] => [[c]]
      | w :: ws => (c :: w) :: ws

/-- Python's `sub in s` on strings: SUBSTRING containment (so `'' in s` is
always true, and `'FJ' in 'AFJT'` is true). -/
def pyInStr (n : List Char) : List Char → Bool
  | [] => List.isPrefixOf n []
  | c :: t => List.isPrefixOf n (c :: t) || pyInStr n t

/-- Two decimal digit characters as a number. -/
def digit2 (a b : Char) : Option Nat :=
  if a.isDigit ∧ b.isDigit then some ((a.toNat - 48) * 10 + (b.toNat - 48))
  else none

/-- Cumulative days before each month in a non-leap year. -/
def daysBeforeMonth : List Nat :=
  [0, 31, 59, 90, 120, 151, 181, 212, 243, 273, 304, 334]

def isLeap (y : Nat) : Bool :=
  (y % 4 = 0 && y % 100 ≠ 0) || y % 400 = 0

/-- `datetime.date(y, m, 1).toordinal()` (proleptic Gregorian ordinal,
0001-01-01 is day 1), for `1 ≤ m ≤ 12`. -/
def toOrdinalFirst (y m : Nat) : Nat :=
  365 * (y - 1) + (y - 1) / 4 - (y - 1) / 100 + (y - 1) / 400 +
    daysBeforeMonth.getD (m - 1) 0 + (if 2 < m ∧ isLeap y then 1 else 0) + 1

/-- `calendar.timegm` of `(y, mo, d, h, mi, s)`: seconds since the Unix
epoch, whose ordinal is 719163. -/
def timegm (y mo d h mi s : Nat) : Int :=
  ((toOrdinalFirst y mo : Int) - 719163 + (d : Int) - 1) * 86400 +
    ((h : Int) * 3600 + (mi : Int) * 60 + (s : Int))

/-- `parse_dt(s)` (fossil.py line 25): `time.strptime(s[:19],
'%Y-%m-%dT%H:%M:%S')` fed to `calendar.timegm`.  Repository dates are the
canonical fixed-width `YYYY-MM-DDTHH:MM:SS`, which is what is modelled
(strptime additionally tolerates 1-digit fields, not needed here); the field
ranges are the ones strptime enforces.  `none` is ValueError. -/
def parse_dt (s : List Char) : Option Int :=
  match s.take 19 with
  | [y1, y2, y3, y4, a1, m1, m2, a2, d1, d2, a3, h1, h2, a4, i1, i2, a5, c1, c2] =>
    if a1 = '-' ∧ a2 = '-' ∧ a3 = 'T' ∧ a4 = ':' ∧ a5 = ':' then
      match digit2 y1 y2, digit2 y3 y4, digit2 m1 m2, digit2 d1 d2,
          digit2 h1 h2, digit2 i1 i2, digit2 c1 c2 with
      | some yh, some yl, some mo, some d, some h, some mi, some sec =>
        if 1 ≤ mo ∧ mo ≤ 12 ∧ 1 ≤ d ∧ d ≤ 31 ∧ h ≤ 23 ∧ mi ≤ 59 ∧ sec ≤ 61 ∧
            1 ≤ yh * 100 + yl then
          some (timegm (yh * 100 + yl) mo d h mi sec)
        else none
      | _, _, _, _, _, _, _ => none
    else none
  | _ => none

/-- Digit run to a number; `none` when empty or a non-digit appears. -/
def digitsToNat (ds : List Char) : Option Nat :=
  if ds ≠ [] ∧ ds.all (fun c => c.isDigit) then
    some (ds.foldl (fun a c => a * 10 + (c.toNat - 48)) 0)
  else none

/-- Python `int(str)`: surrounding whitespace, an optional sign, then decimal
digits (digit-group underscores are not modelled; card tokens never carry
them).  `none` is ValueError. -/
def pyToInt (s : List Char) : Option Int :=
  match (((s.dropWhile (fun c => uniWS.contains c.toNat)).reverse.dropWhile
      (fun c => uniWS.contains c.toNat)).reverse) with
  | '-' :: ds => (digitsToNat ds).map (fun n => -(n : Int))
  | '+' :: ds => (digitsToNat ds).map (fun n => (n : Int))
  | ds => (digitsToNat ds).map (fun n => (n : Int))

/-- The value stored for one card, per branch of `parse`. -/
inductive CardVal
  | texts (ts : List (List Char))
  | tok (t : List Char)
  | text (t : List Char)
  | date (n : Int)
  | etuple (n : Int) (ts : List (List Char))
  | toks (ts : List (List Char))
  | wiki (t : List Char)
deriving DecidableEq

/-- A `self.cards` entry: a lone value, or the accumulating list kept for
card letters in `CARDMULTI`. -/
inductive CardEntry
  | single (v : CardVal)
  | multi (vs : List CardVal)
deriving DecidableEq

/-- `self.cards`: a Python dict is insertion-ordered, so an ordered
association list. -/
abbrev Cards := List (List Char × CardEntry)

/-- `CARDMULTI = frozenset('FJMQT')`; membership here is EXACT equality of
the whole key, unlike the substring tests in the dispatch. -/
def CARDMULTI : List (List Char) := [['F'], ['J'], ['M'], ['Q'], ['T']]

/-- Dict read `cards.get(cmd)`. -/
def cardsFind (cards : Cards) (k : List Char) : Option CardEntry :=
  (cards.find? (fun p => p.1 == k)).map (fun p => p.2)

/-- Dict write `cards[k] = e`: overwrite in place, or append a new key. -/
def cardsSet : Cards → List Char → CardEntry → Cards
  | [], k, e => [(k, e)]
  | (k2, e2) :: rest, k, e =>
    if k2 = k then (k2, e) :: rest else (k2, e2) :: cardsSet rest k e

/-- The card-recording step of `parse`: letters in `CARDMULTI` accumulate a
list in encounter order, all others overwrite.  (The `single` arm under a
multi key cannot arise: a `CARDMULTI` key is only ever stored as `multi`.) -/
def cardsAdd (cards : Cards) (k : List Char) (v : CardVal) : Cards :=
  if CARDMULTI.contains k then
    match cardsFind cards k with
    | some (.multi l) => cardsSet cards k (.multi (l ++ [v]))
    | some (.single _) => cardsSet cards k (.multi [v])
    | none => cards ++ [(k, .multi [v])]
  else cardsSet cards k (.single v)

/-- The Python exceptions the parse loop can raise. -/
inductive PErr
  | unicodeDecode
  | indexError
  | valueError
  | unrecognizedCard
deriving DecidableEq

/-- The `while line:` loop of `StructuralArtifact.parse` (fossil.py lines
226-256).  Each line is decoded, right-stripped and split on single spaces;
the FIRST token `cmd` is dispatched through `cmd in 'AFJT'`,
`cmd in 'BGIKMNRZ'`, `cmd in 'CHLU'`, `cmd == 'D'`, `cmd == 'E'`,
`cmd in 'PQ'`, `cmd == 'W'` — the `in` tests being substring containment —
and anything else raises ValueError (unrecognized card).  `W` additionally
consumes `size + 1` raw bytes from the stream. -/
def parse_go (input : List Nat) (cards : Cards) : Except PErr Cards :=
  if hin : input = [] then .ok cards
  else
    match utf8Decode (readline input).1 with
    | none => .error .unicodeDecode
    | some decoded =>
      if pyInStr (pySplitSpace (pyStrRstrip decoded)).headI (strChars "AFJT") then
        parse_go (readline input).2
          (cardsAdd cards (pySplitSpace (pyStrRstrip decoded)).headI
            (.texts ((pySplitSpace (pyStrRstrip decoded)).tail.map text_unescape)))
      else if pyInStr (pySplitSpace (pyStrRstrip decoded)).headI (strChars "BGIKMNRZ") then
        match (pySplitSpace (pyStrRstrip decoded)).tail with
        | [] => .error .indexError
        | t :: _ =>
          parse_go (readline input).2
            (cardsAdd cards (pySplitSpace (pyStrRstrip decoded)).headI (.tok t))
      else if pyInStr (pySplitSpace (pyStrRstrip decoded)).headI (strChars "CHLU") then
        match (pySplitSpace (pyStrRstrip decoded)).tail with
        | [] => .error .indexError
        | t :: _ =>
          parse_go (readline input).2
            (cardsAdd cards (pySplitSpace (pyStrRstrip decoded)).headI
              (.text (text_unescape t)))
      else if (pySplitSpace (pyStrRstrip decoded)).headI = strChars "D" then
        match (pySplitSpace (pyStrRstrip decoded)).tail with
        | [] => .error .indexError
        | t :: _ =>
          match parse_dt t with
          | none => .error .valueError
          | some n =>
            parse_go (readline input).2
              (cardsAdd cards (pySplitSpace (pyStrRstrip decoded)).headI (.date n))
      else if (pySplitSpace (pyStrRstrip decoded)).headI = strChars "E" then
        match (pySplitSpace (pyStrRstrip decoded)).tail with
        | [] => .error .indexError
        | t :: ts =>
          match parse_dt t with
          | none => .error .valueError
          | some n =>
            parse_go (readline input).2
              (cardsAdd cards (pySplitSpace (pyStrRstrip decoded)).headI (.etuple n ts))
      else if pyInStr (pySplitSpace (pyStrRstrip decoded)).headI (strChars "PQ") then
        parse_go (readline input).2
          (cardsAdd cards (pySplitSpace (pyStrRstrip decoded)).headI
            (.toks (pySplitSpace (pyStrRstrip decoded)).tail))
      else if (pySplitSpace (pyStrRstrip decoded)).headI = strChars "W" then
        match (pySplitSpace (pyStrRstrip decoded)).tail with
        | [] => .error .indexError
        | t :: _ =>
          match pyToInt t with
          | none => .error .valueError
          | some size =>
            match utf8Decode (if size + 1 < 0 then (readline input).2
                else (readline input).2.take (size + 1).toNat) with
            | none => .error .unicodeDecode
            | some w =>
              parse_go (if size + 1 < 0 then []
                  else (readline input).2.drop (size + 1).toNat)
                (cardsAdd cards (pySplitSpace (pyStrRstrip decoded)).headI (.wiki w))
      else .error .unrecognizedCard
termination_by input.length
decreasing_by
all_goals
  have key2 : ∀ l : List Nat, ((readline l).2).length ≤ l.length := by
    intro l
    induction l with
    | nil => simp [readline]
    | cons c r ih =>
      by_cases hc : c = 10
      · simp [readline, hc]
      · simp only [readline, hc, if_false, List.length_cons]
        omega
all_goals
  have hlt : ((readline input).2).length < input.length := by
    cases input with
    | nil => exact absurd rfl hin
    | cons c r =>
      by_cases hc : c = 10
      · simp [readline, hc]
      · simp only [readline, hc, if_false, List.length_cons]
        have h2 := key2 r
        omega
all_goals
  first
  | exact hlt
  | (split
     · exact List.length_pos.mpr hin
     · simp only [List.length_drop]
       omega)

/-- `StructuralArtifact.parse` on a blob: strip the clear-sign envelope, then
run the line loop on an initially empty card dict. -/
def structural_parse (blob : List Nat) : Except PErr Cards :=
  parse_go (remove_clearsign blob) []

/-! ## LRUCache (fossil.py lines 147-172) -/

/-- The LRU cache: an `OrderedDict` (oldest first) plus the fixed capacity. -/
structure LRU where
  capacity : Nat
  data : List (Nat × List Nat)
deriving DecidableEq

/-- `key in cache` / the value found, without promotion (`__contains__` goes
straight to the underlying dict). -/
def lruLookup (c : LRU) (k : Nat) : Option (List Nat) :=
  (c.data.find? (fun p => p.1 == k)).map (fun p => p.2)

/-- `cache[key]` on a present key: `pop` + re-insert promotes it to
most-recently-used. -/
def lruPromote (c : LRU) (k : Nat) (v : List Nat) : LRU :=
  ⟨c.capacity, (c.data.filter (fun p => !(p.1 == k))) ++ [(k, v)]⟩

/-- `cache[key] = value` (`__setitem__`): a no-op at capacity zero; a present
key is popped first; an absent key at capacity evicts the least-recently-used
(first) entry; the new pair is appended at the most-recently-used end. -/
def lruSet (c : LRU) (k : Nat) (v : List Nat) : LRU :=
  if c.capacity = 0 then c
  else if (c.data.find? (fun p => p.1 == k)).isSome then
    ⟨c.capacity, (c.data.filter (fun p => !(p.1 == k))) ++ [(k, v)]⟩
  else if c.capacity ≤ c.data.length then
    ⟨c.capacity, c.data.drop 1 ++ [(k, v)]⟩
  else ⟨c.capacity, c.data ++ [(k, v)]⟩

/-! ## Repository façade: decompress and Repo.artifact
(fossil.py lines 64-69 and 288-320) -/

/-- One row `(rid, uuid, content)` of the recursive chain query, in the
ORDER BY depth order: undeltified ancestor first, requested blob last. -/
structure Row3 where
  rid : Nat
  uuid : String
  content : List Nat
deriving DecidableEq

/-- `decompress(blob)` (fossil.py lines 64-69): `struct.unpack('>I', blob[:4])`
raises struct.error when fewer than 4 bytes are available; the unpacked size
is computed but NOT checked (the assert is commented out); the remainder goes
through zlib, an external library modelled by the `inflate` parameter
(`none` = zlib.error). -/
def decompress (inflate : List Nat → Option (List Nat)) (blob : List Nat) :
    Option (List Nat) :=
  if blob.length < 4 then none else inflate (blob.drop 4)

/-- What `Repo.artifact` can raise. -/
inductive ArtifactErr
  /-- The chain query returned no rows: the loop variable `rid` in
  `raise ValueError("can't find artifact: %s" % rid)` was never bound, so the
  raise statement itself dies with UnboundLocalError. -/
  | unboundLocalRid
  /-- `ValueError("can't find artifact: %s" % rid)` with `rid` the id of the
  last row the loop saw. -/
  | cantFind (rid : Nat)
  /-- A decompress or delta failure propagating out of the loop. -/
  | reconstructFailed
deriving DecidableEq

/-- The returned artifact data: the reconstructed blob and the ids of the
final (requested) row. -/
structure ArtifactRes where
  blob : List Nat
  rid : Nat
  uuid : String
deriving DecidableEq

/-- The row loop of `Repo.artifact` (fossil.py lines 297-312).  For each row
in ancestor-first order: a cache hit replaces the working buffer (promoting
the entry, with no insert); otherwise a truthy working buffer is advanced by
`delta_apply(blob, decompress(content), check)`, a falsy one (None or empty)
is replaced by `decompress(content)`, and the result is cached.  Returns the
final working buffer (`none` = the loop never ran) and the cache. -/
def artifact_go (check : Bool) (inflate : List Nat → Option (List Nat)) :
    List Row3 → Option (List Nat) → LRU → Except ArtifactErr (Option (List Nat) × LRU)
  | [], blob, cache => .ok (blob, cache)
  | r :: rest, blob, cache =>
    match lruLookup cache r.rid with
    | some v => artifact_go check inflate rest (some v) (lruPromote cache r.rid v)
    | none =>
      match (if (blob.getD []).isEmpty then decompress inflate r.content
          else (decompress inflate r.content).bind
            (fun d => delta_apply (blob.getD []) d check)) with
      | none => .error .reconstructFailed
      | some nb => artifact_go check inflate rest (some nb) (lruSet cache r.rid nb)

/-- `Repo.artifact` (fossil.py lines 288-320) given the rows the chain query
produced for the key.  After the loop, `if not blob:` catches both the
never-ran loop (blob is None — but then `rid` is unbound and the raise
statement crashes with UnboundLocalError) and an empty reconstructed buffer
(ValueError naming the last row's rid).  Otherwise the artifact is built from
the blob and the LAST row's `rid` and `uuid`. -/
def repo_artifact (check : Bool) (inflate : List Nat → Option (List Nat))
    (rows : List Row3) (cache : LRU) : Except ArtifactErr (ArtifactRes × LRU) :=
  match artifact_go check inflate rows none cache with
  | .error e => .error e
  | .ok (blobOpt, cache2) =>
    if (blobOpt.getD []).isEmpty then
      match rows.getLast? with
      | none => .error .unboundLocalRid
      | some r => .error (.cantFind r.rid)
    else
      match rows.getLast? with
      | none => .error .unboundLocalRid
      | some r => .ok (⟨blobOpt.getD [], r.rid, r.uuid⟩, cache2)

/-! ## Concrete inputs used by the claim theorems -/

/-- A delta (`"0\n1@0,0;"`) whose single COPY asks for one byte at offset 0:
out of range for an empty source, with declared target size 0. -/
def truncatedCopyDelta : List Nat := strBytes "0\x0a1@0,0;"

/-- A clear-signed blob whose message region contains an interior blank
line: header, blank, `A`, blank, `B`. -/
def innerBlankBlob : List Nat :=
  clearsignHeader ++ [10, 10, 65, 10, 10, 66, 10]

/-- A clear-signed blob whose message starts with a dash-escaped copy of the
clear-sign header, so that stripping once yields a blob that starts with the
header again. -/
def nestedHeaderBlob : List Nat :=
  clearsignHeader ++ [10, 10, 45, 32] ++ clearsignHeader ++ [10, 10, 88, 10]

/-- A tiny well-formed clear-signed blob (armor header, blank line, one card
line). -/
def smallClearsignBlob : List Nat :=
  clearsignHeader ++ [10, 10] ++ strBytes "C hi\x0a"

/-- An `inflate` stub whose output is always empty: a chain whose requested
blob reconstructs to zero bytes. -/
def inflateEmpty : List Nat → Option (List Nat) := fun _ => some []

/-- An `inflate` stub producing the one-byte blob `[65]`. -/
def inflateA : List Nat → Option (List Nat) := fun _ => some [65]

/-- A single undeltified blob row with a 4-byte stored header. -/
def rows1 : List Row3 := [⟨1, "u1", [0, 0, 0, 0]⟩]

/-- An empty cache of capacity 4. -/
def cache0 : LRU := ⟨4, []⟩

/-! ## Sanity checks of the model on the spec's concrete scenarios -/

example : delta_checksum [0, 0, 0, 1] = 1 := by decide
example : delta_checksum [255, 255, 255, 255] = 4294967295 := by decide
example : delta_checksum [0, 0, 0, 1, 255] = 4278190081 := by decide
example : base64_getint (strBytes "~") 0 = some (63, 1) := by decide
example : base64_getint (strBytes "10") 0 = some (64, 2) := by decide
example :
    remove_clearsign
        (strBytes "-----BEGIN PGP SIGNED MESSAGE-----\nHash: SHA1\n\nC hi\n- -----extra\n-----BEGIN PGP SIGNATURE-----\nsig\n-----END PGP SIGNATURE-----\n") =
      strBytes "C hi\n-----extra\n" := by decide
example : text_unescape (strChars "hello\\sworld") = strChars "hello world" := by decide
example : parse_dt (strChars "2020-01-02T03:04:05") = some 1577934245 := by decide

/-! ## Helper lemmas -/

/-- The running-mod fold equals the plain word sum taken mod 2^32. -/
theorem csGo_eq : ∀ (l : List Nat) (cs : Nat), cs < 4294967296 →
    csGo cs l = (cs + sumWords l) % 4294967296
  | [], cs, h => by simp [csGo, sumWords, Nat.mod_eq_of_lt h]
  | [a], cs, h => by simp [csGo, sumWords, Nat.mod_eq_of_lt h]
  | [a, b], cs, h => by simp [csGo, sumWords, Nat.mod_eq_of_lt h]
  | [a, b, c], cs, h => by simp [csGo, sumWords, Nat.mod_eq_of_lt h]
  | a :: b :: c :: d :: r, cs, h => by
    have step : csGo cs (a :: b :: c :: d :: r) =
        csGo ((cs + be32 a b c d) % 4294967296) r := rfl
    rw [step, csGo_eq r _ (Nat.mod_lt _ (by omega))]
    have hsw : sumWords (a :: b :: c :: d :: r) = be32 a b c d + sumWords r := rfl
    rw [hsw]
    omega

/-- The word sum splits across an append whose left part is word-aligned. -/
theorem sumWords_append : ∀ (x y : List Nat), x.length % 4 = 0 →
    sumWords (x ++ y) = sumWords x + sumWords y
  | [], y, _ => by simp [sumWords]
  | [a], y, h => by simp at h
  | [a, b], y, h => by simp at h
  | [a, b, c], y, h => by simp at h
  | a :: b :: c :: d :: r, y, h => by
    have hr : r.length % 4 = 0 := by
      simp only [List.length_cons] at h
      omega
    have h1 : sumWords ((a :: b :: c :: d :: r) ++ y) =
        be32 a b c d + sumWords (r ++ y) := rfl
    have h2 : sumWords (a :: b :: c :: d :: r) = be32 a b c d + sumWords r := rfl
    rw [h1, h2, sumWords_append r y hr]
    omega

/-! ## Claim theorems -/

/-- Claim C1 (code_bug): the varint round-trip fails.  `base64_putint`
emits the low six bits FIRST and never reverses, so `base64_putint 64` is the
two bytes `"01"`; the decoder treats the first digit as most significant, so
decoding gives `(1, 2)`, not the `(64, 2)` the claim requires. -/
theorem base64_roundtrip_breaks_at_64 :
    base64_putint 64 = strBytes "01" ∧
      base64_getint (base64_putint 64) 0 = some (1, 2) ∧ (1 : Nat) ≠ 64 := by
  refine ⟨?_, ?_, by omega⟩
  · rw [base64_putint, if_neg (by omega), putint_go, dif_neg (by omega),
      putint_go, dif_neg (by omega), putint_go, dif_pos rfl]
    decide
  · rw [base64_putint, if_neg (by omega), putint_go, dif_neg (by omega),
      putint_go, dif_neg (by omega), putint_go, dif_pos rfl]
    decide

/-- Claim C6 (code_bug): on an empty decode window `base64_getint` crashes
(UnboundLocalError from the `for`/`else` incrementing the never-bound `z`)
instead of returning `(0, start-offset)`: so for the empty buffer and for a
start offset at or past the end.  A NONEMPTY window starting with a non-digit
does return `(0, start-offset)` as claimed (`;` = byte 59 is a non-digit). -/
theorem base64_getint_empty_crashes :
    base64_getint [] 0 = none ∧
      base64_getint [48, 49] 2 = none ∧
      base64_getint [59] 0 = some (0, 0) ∧
      base64_getint [48, 59] 1 = some (0, 1) := by
  refine ⟨rfl, rfl, by decide, by decide⟩

/-- Claim C8 (confirmed): `delta_checksum` is additive modulo 2^32 across a
split at a word boundary. -/
theorem delta_checksum_linear (a b : List Nat) (h : a.length % 4 = 0) :
    delta_checksum (a ++ b) = (delta_checksum a + delta_checksum b) % 4294967296 := by
  rw [delta_checksum, delta_checksum, delta_checksum,
    csGo_eq _ 0 (by omega), csGo_eq _ 0 (by omega), csGo_eq _ 0 (by omega)]
  simp only [Nat.zero_add]
  have hlen : (a ++ b).length % 4 = b.length % 4 := by
    simp only [List.length_append]
    omega
  rw [hlen, List.append_assoc,
    sumWords_append a (b ++ List.replicate (4 - b.length % 4) 0) h]
  have hpada : 4 - a.length % 4 = 4 := by omega
  rw [hpada, sumWords_append a (List.replicate 4 0) h]
  have hz : sumWords (List.replicate 4 0) = 0 := by decide
  rw [hz, Nat.add_mod]
  simp

/-- Witness for C8 at `a = [0,0,0,1]`, `b = [255]`. -/
theorem delta_checksum_linear_witness :
    delta_checksum ([0, 0, 0, 1] ++ [255]) =
      (delta_checksum [0, 0, 0, 1] + delta_checksum [255]) % 4294967296 :=
  delta_checksum_linear [0, 0, 0, 1] [255] (by decide)

/-- Claim C5 (code_bug): `delta_apply` does NOT reject a COPY reaching past
the end of the source.  `blob[offset:offset+num]` is a Python slice, which
clamps: on the empty source with delta `"0\n1@0,0;"` (target size 0, one COPY
of 1 byte at offset 0, END), the copy silently appends nothing, the size
check passes, and the call returns successfully — even though
`offset + n = 1 > 0 = len(source)`. -/
theorem delta_apply_truncated_copy_succeeds :
    delta_apply [] truncatedCopyDelta false = some [] ∧
      0 + 1 > ([] : List Nat).length := by
  refine ⟨?_, by decide⟩
  have hloop : delta_loop [] [49, 64, 48, 44, 48, 59] [] = some ([], 0) := by
    rw [delta_loop]
    norm_num [getint_count, digitVal, zvalue, pyIndex, base64_getint, pySlice]
    rw [delta_loop]
    norm_num [getint_count, digitVal, zvalue, pyIndex, base64_getint, pySlice]
    decide
  have hstart : base64_getint truncatedCopyDelta 0 = some (0, 1) := by decide
  have hdrop : truncatedCopyDelta.drop 2 = [49, 64, 48, 44, 48, 59] := by decide
  norm_num [delta_apply, hstart, hdrop, hloop]

/-- Before the first blank line the loop emits nothing; afterwards it behaves
as the `content = true` loop on the remaining lines. -/
theorem rc_go_false_eq (ls : List (List Nat)) :
    rc_go false ls = rc_go true (dropThroughBlank ls) := by
  induction ls with
  | nil => rfl
  | cons ln r ih =>
    by_cases hb : rstripB ln = []
    · have h1 : (!isBlankLine ln) = false := by simp [isBlankLine, hb]
      simp only [rc_go, if_pos hb, dropThroughBlank, List.dropWhile_cons, h1,
        Bool.false_eq_true, if_false, List.drop_succ_cons, List.drop_zero]
    · have h1 : (!isBlankLine ln) = true := by simp [isBlankLine, hb]
      simp only [rc_go, if_neg hb, Bool.false_eq_true, if_false, dropThroughBlank,
        List.dropWhile_cons, h1, if_true]
      rw [ih, dropThroughBlank]

/-- With `content` set, the loop is take-until-the-signature-line, drop the
whitespace-only lines, dash-unescape. -/
theorem rc_go_true_eq (ls : List (List Nat)) :
    rc_go true ls =
      ((ls.takeWhile (fun l => !isSigLine l)).filter
        (fun l => !isBlankLine l)).map dedash := by
  induction ls with
  | nil => rfl
  | cons ln r ih =>
    by_cases hb : rstripB ln = []
    · have hsig : (!isSigLine ln) = true := by
        have : isSigLine ln = false := by
          simp only [isSigLine, hb]
          decide
        simp [this]
      have hblank : (!isBlankLine ln) = false := by simp [isBlankLine, hb]
      simp only [rc_go, if_pos hb, List.takeWhile_cons, hsig, if_true,
        List.filter_cons, hblank, Bool.false_eq_true, if_false]
      exact ih
    · by_cases hs : rstripB ln = pgpsignHeader
      · have hsig : (!isSigLine ln) = false := by simp [isSigLine, hs]
        simp only [rc_go, if_neg hb, if_pos hs, List.takeWhile_cons, hsig,
          Bool.false_eq_true, if_false, List.filter_nil, List.map_nil, if_true]
      · have hsig : (!isSigLine ln) = true := by simp [isSigLine, hs]
        have hblank : (!isBlankLine ln) = true := by simp [isBlankLine, hb]
        simp only [rc_go, if_neg hb, if_neg hs, if_true, List.takeWhile_cons, hsig,
          List.filter_cons, hblank, List.map_cons]
        rw [ih]

/-- Claim C3 (corrected): for a blob starting with the clear-sign header,
`remove_clearsign` returns the lines after the first blank line up to the
signature line, dash-unescaped — with whitespace-only lines inside that
region DROPPED (the claim said kept). -/
theorem remove_clearsign_spec_desc (blob : List Nat)
    (h : clearsignHeader.isPrefixOf blob = true) :
    remove_clearsign blob =
      List.flatten (clearsign_spec_lines (splitlinesKeep blob)) := by
  rw [remove_clearsign, if_pos h, clearsign_spec_lines, ← rc_go_true_eq,
    ← rc_go_false_eq]

/-- Witness for C3's corrected statement on a small clear-signed blob. -/
theorem remove_clearsign_spec_desc_witness :
    remove_clearsign smallClearsignBlob =
      List.flatten (clearsign_spec_lines (splitlinesKeep smallClearsignBlob)) :=
  remove_clearsign_spec_desc smallClearsignBlob (by decide)

/-- Counterexample for C3 as stated: on header, blank, `A`, blank, `B` the
code emits `A\nB\n` — the interior blank line is dropped — while the claim's
description (interior blanks kept) yields `A\n\nB\n`. -/
theorem remove_clearsign_drops_inner_blank_line :
    clearsignHeader.isPrefixOf innerBlankBlob = true ∧
      remove_clearsign innerBlankBlob = [65, 10, 66, 10] ∧
      List.flatten (clearsign_claim_lines (splitlinesKeep innerBlankBlob)) =
        [65, 10, 10, 66, 10] ∧
      remove_clearsign innerBlankBlob ≠
        List.flatten (clearsign_claim_lines (splitlinesKeep innerBlankBlob)) := by
  refine ⟨by decide, by decide, by decide, by decide⟩

/-- Unfolding equation for `replace2` on two or more characters. -/
theorem replace2_cons2 (p q : Char) (rep : List Char) (a b : Char) (r : List Char) :
    replace2 p q rep (a :: b :: r) =
      if a = p ∧ b = q then rep ++ replace2 p q rep r
      else a :: replace2 p q rep (b :: r) := rfl

/-- A head that cannot start the pattern is copied through. -/
theorem replace2_push (p q : Char) (rep : List Char) (a : Char) (l : List Char)
    (h : a ≠ p ∨ l.head? ≠ some q) :
    replace2 p q rep (a :: l) = a :: replace2 p q rep l := by
  cases l with
  | nil => rfl
  | cons b r =>
    rw [replace2_cons2, if_neg]
    rintro ⟨h1, h2⟩
    rcases h with h3 | h3
    · exact h3 h1
    · exact h3 (by simp [h2])

/-- A single-character replacement changes the head to the replacement
character, if at all. -/
theorem replace2_head (p q rh : Char) (u : List Char) :
    (replace2 p q [rh] u).head? = u.head? ∨ (replace2 p q [rh] u).head? = some rh := by
  cases u with
  | nil => exact Or.inl rfl
  | cons a l =>
    cases l with
    | nil => exact Or.inl rfl
    | cons b r =>
      rw [replace2_cons2]
      by_cases hab : a = p ∧ b = q
      · rw [if_pos hab]
        exact Or.inr rfl
      · rw [if_neg hab]
        exact Or.inl rfl

/-- `hasBadTriple` is monotone along the tail. -/
theorem hasBadTriple_tail (a : Char) (l : List Char)
    (h : hasBadTriple (a :: l) = false) : hasBadTriple l = false := by
  cases l with
  | nil => rfl
  | cons b t =>
    cases t with
    | nil => rfl
    | cons c r =>
      have he : hasBadTriple (a :: b :: c :: r) =
          (((a == '\\') && (b == '\\') && ((c == 's') || (c == 'n'))) ||
            hasBadTriple (b :: c :: r)) := rfl
      rw [he] at h
      exact (Bool.or_eq_false_iff.mp h).2

/-- After two backslashes, a clean string cannot continue with `s` or `n`. -/
theorem hasBadTriple_head (c : Char) (r : List Char)
    (h : hasBadTriple ('\\' :: '\\' :: c :: r) = false) : c ≠ 's' ∧ c ≠ 'n' := by
  have he : hasBadTriple ('\\' :: '\\' :: c :: r) =
      (((('\\' : Char) == '\\') && (('\\' : Char) == '\\') &&
        ((c == 's') || (c == 'n'))) || hasBadTriple ('\\' :: c :: r)) := rfl
  rw [he] at h
  have h1 := (Bool.or_eq_false_iff.mp h).1
  simpa using h1

/-- Unfolding equation for the claimed single pass. -/
theorem onepass_cons2 (a b : Char) (r : List Char) :
    unescape_onepass (a :: b :: r) =
      if a = '\\' then
        if b = '\\' then '\\' :: unescape_onepass r
        else if b = 's' then ' ' :: unescape_onepass r
        else if b = 'n' then '\n' :: unescape_onepass r
        else a :: unescape_onepass (b :: r)
      else a :: unescape_onepass (b :: r) := rfl

/-- Claim C4 (corrected): the three sequential replacements DO agree with the
single left-to-right pass, but only on strings with no occurrence of the
three-character substrings `\\s` or `\\n`; see the counterexample for the
general claim. -/
theorem text_unescape_eq_onepass : ∀ (s : List Char),
    hasBadTriple s = false → text_unescape s = unescape_onepass s
  | [], _ => rfl
  | [_], _ => rfl
  | a :: b :: r, h => by
    by_cases ha : a = '\\'
    · subst ha
      by_cases hb2 : b = '\\'
      · subst hb2
        cases r with
        | nil => decide
        | cons c t =>
          obtain ⟨hcs, hcn⟩ := hasBadTriple_head c t h
          have e1 : replace2 '\\' 's' [' '] ('\\' :: '\\' :: c :: t) =
              '\\' :: '\\' :: replace2 '\\' 's' [' '] (c :: t) := by
            rw [replace2_cons2, if_neg (by simp),
              replace2_push _ _ _ _ _ (Or.inr (by simp [hcs]))]
          have hh2 : (replace2 '\\' 's' [' '] (c :: t)).head? ≠ some 'n' := by
            rcases replace2_head '\\' 's' ' ' (c :: t) with h1 | h1 <;> rw [h1]
            · simp [hcn]
            · simp
          have e2 : replace2 '\\' 'n' ['\n']
                ('\\' :: '\\' :: replace2 '\\' 's' [' '] (c :: t)) =
              '\\' :: '\\' :: replace2 '\\' 'n' ['\n']
                (replace2 '\\' 's' [' '] (c :: t)) := by
            rw [replace2_cons2, if_neg (by simp),
              replace2_push _ _ _ _ _ (Or.inr hh2)]
          have e3 : replace2 '\\' '\\' ['\\']
                ('\\' :: '\\' :: replace2 '\\' 'n' ['\n']
                  (replace2 '\\' 's' [' '] (c :: t))) =
              '\\' :: replace2 '\\' '\\' ['\\']
                (replace2 '\\' 'n' ['\n'] (replace2 '\\' 's' [' '] (c :: t))) := by
            rw [replace2_cons2, if_pos ⟨rfl, rfl⟩]
            rfl
          have hrec := text_unescape_eq_onepass (c :: t)
            (hasBadTriple_tail _ _ (hasBadTriple_tail _ _ h))
          rw [text_unescape, e1, e2, e3, onepass_cons2, if_pos rfl, if_pos rfl]
          rw [show replace2 '\\' '\\' ['\\'] (replace2 '\\' 'n' ['\n']
            (replace2 '\\' 's' [' '] (c :: t))) = text_unescape (c :: t) from rfl]
          rw [hrec]
      · by_cases hbs : b = 's'
        · subst hbs
          have e1 : replace2 '\\' 's' [' '] ('\\' :: 's' :: r) =
              ' ' :: replace2 '\\' 's' [' '] r := by
            rw [replace2_cons2, if_pos ⟨rfl, rfl⟩]
            rfl
          have e2 : replace2 '\\' 'n' ['\n'] (' ' :: replace2 '\\' 's' [' '] r) =
              ' ' :: replace2 '\\' 'n' ['\n'] (replace2 '\\' 's' [' '] r) :=
            replace2_push _ _ _ _ _ (Or.inl (by decide))
          have e3 : replace2 '\\' '\\' ['\\']
                (' ' :: replace2 '\\' 'n' ['\n'] (replace2 '\\' 's' [' '] r)) =
              ' ' :: replace2 '\\' '\\' ['\\']
                (replace2 '\\' 'n' ['\n'] (replace2 '\\' 's' [' '] r)) :=
            replace2_push _ _ _ _ _ (Or.inl (by decide))
          have hrec := text_unescape_eq_onepass r
            (hasBadTriple_tail _ _ (hasBadTriple_tail _ _ h))
          rw [text_unescape, e1, e2, e3, onepass_cons2, if_pos rfl,
            if_neg (by decide), if_pos rfl]
          rw [show replace2 '\\' '\\' ['\\'] (replace2 '\\' 'n' ['\n']
            (replace2 '\\' 's' [' '] r)) = text_unescape r from rfl]
          rw [hrec]
        · by_cases hbn : b = 'n'
          · subst hbn
            have e1 : replace2 '\\' 's' [' '] ('\\' :: 'n' :: r) =
                '\\' :: 'n' :: replace2 '\\' 's' [' '] r := by
              rw [replace2_cons2, if_neg (by simp),
                replace2_push _ _ _ _ _ (Or.inl (by decide))]
            have e2 : replace2 '\\' 'n' ['\n']
                  ('\\' :: 'n' :: replace2 '\\' 's' [' '] r) =
                '\n' :: replace2 '\\' 'n' ['\n'] (replace2 '\\' 's' [' '] r) := by
              rw [replace2_cons2, if_pos ⟨rfl, rfl⟩]
              rfl
            have e3 : replace2 '\\' '\\' ['\\']
                  ('\n' :: replace2 '\\' 'n' ['\n'] (replace2 '\\' 's' [' '] r)) =
                '\n' :: replace2 '\\' '\\' ['\\']
                  (replace2 '\\' 'n' ['\n'] (replace2 '\\' 's' [' '] r)) :=
              replace2_push _ _ _ _ _ (Or.inl (by decide))
            have hrec := text_unescape_eq_onepass r
              (hasBadTriple_tail _ _ (hasBadTriple_tail _ _ h))
            rw [text_unescape, e1, e2, e3, onepass_cons2, if_pos rfl,
              if_neg (by decide), if_neg (by decide), if_pos rfl]
            rw [show replace2 '\\' '\\' ['\\'] (replace2 '\\' 'n' ['\n']
              (replace2 '\\' 's' [' '] r)) = text_unescape r from rfl]
            rw [hrec]
          · have e1 : replace2 '\\' 's' [' '] ('\\' :: b :: r) =
                '\\' :: replace2 '\\' 's' [' '] (b :: r) := by
              rw [replace2_cons2, if_neg (by simp [hbs])]
            have hh2 : (replace2 '\\' 's' [' '] (b :: r)).head? ≠ some 'n' := by
              rcases replace2_head '\\' 's' ' ' (b :: r) with h1 | h1 <;> rw [h1]
              · simp [hbn]
              · simp
            have e2 : replace2 '\\' 'n' ['\n']
                  ('\\' :: replace2 '\\' 's' [' '] (b :: r)) =
                '\\' :: replace2 '\\' 'n' ['\n'] (replace2 '\\' 's' [' '] (b :: r)) :=
              replace2_push _ _ _ _ _ (Or.inr hh2)
            have hh3 : (replace2 '\\' 'n' ['\n']
                (replace2 '\\' 's' [' '] (b :: r))).head? ≠ some '\\' := by
              rcases replace2_head '\\' 'n' '\n'
                  (replace2 '\\' 's' [' '] (b :: r)) with h1 | h1 <;> rw [h1]
              · rcases replace2_head '\\' 's' ' ' (b :: r) with h2 | h2 <;> rw [h2]
                · simp [hb2]
                · simp
              · simp
            have e3 : replace2 '\\' '\\' ['\\']
                  ('\\' :: replace2 '\\' 'n' ['\n']
                    (replace2 '\\' 's' [' '] (b :: r))) =
                '\\' :: replace2 '\\' '\\' ['\\']
                  (replace2 '\\' 'n' ['\n'] (replace2 '\\' 's' [' '] (b :: r))) :=
              replace2_push _ _ _ _ _ (Or.inr hh3)
            have hrec := text_unescape_eq_onepass (b :: r) (hasBadTriple_tail _ _ h)
            rw [text_unescape, e1, e2, e3, onepass_cons2, if_pos rfl,
              if_neg hb2, if_neg hbs, if_neg hbn]
            rw [show replace2 '\\' '\\' ['\\'] (replace2 '\\' 'n' ['\n']
              (replace2 '\\' 's' [' '] (b :: r))) = text_unescape (b :: r) from rfl]
            rw [hrec]
    · have e1 : replace2 '\\' 's' [' '] (a :: b :: r) =
          a :: replace2 '\\' 's' [' '] (b :: r) :=
        replace2_push _ _ _ _ _ (Or.inl ha)
      have e2 : replace2 '\\' 'n' ['\n'] (a :: replace2 '\\' 's' [' '] (b :: r)) =
          a :: replace2 '\\' 'n' ['\n'] (replace2 '\\' 's' [' '] (b :: r)) :=
        replace2_push _ _ _ _ _ (Or.inl ha)
      have e3 : replace2 '\\' '\\' ['\\']
            (a :: replace2 '\\' 'n' ['\n'] (replace2 '\\' 's' [' '] (b :: r))) =
          a :: replace2 '\\' '\\' ['\\']
            (replace2 '\\' 'n' ['\n'] (replace2 '\\' 's' [' '] (b :: r))) :=
        replace2_push _ _ _ _ _ (Or.inl ha)
      have hrec := text_unescape_eq_onepass (b :: r) (hasBadTriple_tail _ _ h)
      rw [text_unescape, e1, e2, e3, onepass_cons2, if_neg ha]
      rw [show replace2 '\\' '\\' ['\\'] (replace2 '\\' 'n' ['\n']
        (replace2 '\\' 's' [' '] (b :: r))) = text_unescape (b :: r) from rfl]
      rw [hrec]

/-- Witness for C4's corrected statement at `"\sx"`. -/
theorem text_unescape_eq_onepass_witness :
    text_unescape ['\\', 's', 'x'] = unescape_onepass ['\\', 's', 'x'] :=
  text_unescape_eq_onepass ['\\', 's', 'x'] (by decide)

/-- Counterexample for C4 as stated: on the three characters backslash,
backslash, `s`, the sequential replacements first turn the trailing `\s` into
a space giving backslash-space, while the single pass consumes the two
backslashes first, giving backslash-`s`. -/
theorem text_unescape_ne_onepass :
    text_unescape ['\\', '\\', 's'] = ['\\', ' '] ∧
      unescape_onepass ['\\', '\\', 's'] = ['\\', 's'] ∧
      text_unescape ['\\', '\\', 's'] ≠ unescape_onepass ['\\', '\\', 's'] := by
  refine ⟨by decide, by decide, by decide⟩

/-- Claim C7 (corrected): a blob that does not start with the clear-sign
header is returned unchanged, and stripping is idempotent PROVIDED the
stripped output does not itself start with the clear-sign header (a
dash-escaped header line in the message defeats idempotence, see the
counterexample). -/
theorem remove_clearsign_idempotent_cond :
    (∀ b, clearsignHeader.isPrefixOf b = false → remove_clearsign b = b) ∧
      ∀ b, clearsignHeader.isPrefixOf (remove_clearsign b) = false →
        remove_clearsign (remove_clearsign b) = remove_clearsign b := by
  have base : ∀ b, clearsignHeader.isPrefixOf b = false → remove_clearsign b = b := by
    intro b hb
    rw [remove_clearsign, if_neg (by simp [hb])]
  exact ⟨base, fun b hb => base (remove_clearsign b) hb⟩

/-- Witness for C7's corrected statement. -/
theorem remove_clearsign_idempotent_cond_witness :
    remove_clearsign (strBytes "hello") = strBytes "hello" ∧
      remove_clearsign (remove_clearsign (strBytes "hello")) =
        remove_clearsign (strBytes "hello") :=
  ⟨remove_clearsign_idempotent_cond.1 (strBytes "hello") (by decide),
   remove_clearsign_idempotent_cond.2 (strBytes "hello") (by decide)⟩

/-- Counterexample for C7 as stated: stripping the blob whose message body is
a dash-escaped clear-sign header produces a blob that starts with the header
again, and stripping that one strips further, to nothing. -/
theorem remove_clearsign_not_idempotent :
    remove_clearsign nestedHeaderBlob = clearsignHeader ++ [10, 88, 10] ∧
      remove_clearsign (remove_clearsign nestedHeaderBlob) = [] ∧
      remove_clearsign (remove_clearsign nestedHeaderBlob) ≠
        remove_clearsign nestedHeaderBlob := by
  refine ⟨by decide, by decide, by decide⟩

/-- Claim C2 (code_bug): when the chain query yields no rows, the loop never
binds `rid`, and `raise ValueError("can't find artifact: %s" % rid)` dies
with UnboundLocalError while formatting its message — not with a not-found
error naming the lookup key (the design note in the spec flags exactly
this). -/
theorem repo_artifact_no_rows_unbound_local (check : Bool)
    (inflate : List Nat → Option (List Nat)) (cache : LRU) :
    repo_artifact check inflate [] cache = .error .unboundLocalRid := rfl

/-- Claim C9 (code_bug): the dispatch `cmd in 'AFJT'` is a SUBSTRING test, so
the two-letter token `FJ` (a substring of `AFJT`) and the empty token both
take the `AFJT` branch and are stored as cards instead of raising the
unrecognized-card ValueError. -/
theorem structural_parse_accepts_unrecognized :
    structural_parse (strBytes "FJ a b\n") =
      .ok [(strChars "FJ", .single (.texts [strChars "a", strChars "b"]))] ∧
      structural_parse (strBytes "\n") = .ok [([], .single (.texts []))] := by
  constructor
  · rw [structural_parse,
      show remove_clearsign (strBytes "FJ a b\n") = strBytes "FJ a b\n" from by decide,
      parse_go]
    show parse_go []
        [(strChars "FJ", CardEntry.single (CardVal.texts [strChars "a", strChars "b"]))] = _
    rw [parse_go]
    rfl
  · rw [structural_parse,
      show remove_clearsign (strBytes "\n") = strBytes "\n" from by decide,
      parse_go]
    show parse_go [] [([], CardEntry.single (CardVal.texts []))] = _
    rw [parse_go]
    rfl

/-- Claim C10 (corrected): `Repo.artifact` never returns an artifact with an
empty reconstructed blob — a chain reconstructing to zero bytes takes the
`if not blob:` raise, producing the ValueError that names the final chain
row's rid.  That is NOT literally "the same error used for a missing row":
with no rows, the very same raise statement crashes with UnboundLocalError
instead (see the counterexample theorem). -/
theorem repo_artifact_never_empty_blob :
    (∀ (check : Bool) (inflate : List Nat → Option (List Nat)) (rows : List Row3)
        (cache : LRU) (art : ArtifactRes) (cache2 : LRU),
      repo_artifact check inflate rows cache = .ok (art, cache2) → art.blob ≠ []) ∧
      (∀ (check : Bool) (inflate : List Nat → Option (List Nat)) (rows : List Row3)
          (cache cache2 : LRU) (r : Row3),
        rows.getLast? = some r →
        artifact_go check inflate rows none cache = .ok (some [], cache2) →
        repo_artifact check inflate rows cache = .error (.cantFind r.rid)) := by
  constructor
  · intro check inflate rows cache art cache2 hok
    rw [repo_artifact] at hok
    split at hok
    · exact absurd hok (by simp)
    · split at hok
      · split at hok
        · exact absurd hok (by simp)
        · exact absurd hok (by simp)
      · split at hok
        · exact absurd hok (by simp)
        · rw [Except.ok.injEq, Prod.mk.injEq] at hok
          obtain ⟨ha, -⟩ := hok
          intro hblob
          rw [← ha] at hblob
          simp only at hblob
          simp_all
  · intro check inflate rows cache cache2 r hl hgo
    simp [repo_artifact, hgo, hl]

/-- Witness for C10's corrected statement: a one-byte reconstruction is
returned (and is nonempty), and the zero-byte reconstruction raises the
can't-find ValueError carrying the row's rid. -/
theorem repo_artifact_never_empty_blob_witness :
    ([65] : List Nat) ≠ [] ∧
      repo_artifact false inflateEmpty rows1 cache0 =
        .error (.cantFind 1) := by
  constructor
  · exact repo_artifact_never_empty_blob.1 false inflateA rows1 cache0
      ⟨[65], 1, "u1"⟩ ⟨4, [(1, [65])]⟩ rfl
  · exact repo_artifact_never_empty_blob.2 false inflateEmpty rows1 cache0
      ⟨4, [(1, [])]⟩ ⟨1, "u1", [0, 0, 0, 0]⟩ rfl rfl

/-- Counterexample for C10's "the same error used for a missing row": the
empty reconstruction raises the can't-find ValueError with the last row's
rid; the missing row raises UnboundLocalError; the two are different
errors. -/
theorem repo_artifact_empty_vs_missing_error_differs :
    repo_artifact false inflateEmpty rows1 cache0 = .error (.cantFind 1) ∧
      repo_artifact false inflateEmpty [] cache0 = .error .unboundLocalRid ∧
      ArtifactErr.cantFind 1 ≠ ArtifactErr.unboundLocalRid := by
  refine ⟨rfl, rfl, by decide⟩
